import Mathlib

/-!
Verification of the bilibili-downloader-server core against its specification.

The Go sources are shallowly embedded: pure string/byte manipulation
(`GetMixinKey`, `filterSpecialChars`, `url.QueryEscape`, MD5, `EncWbi`) become
executable Lean functions over `List Nat` byte sequences and `String`s;
stateful or effectful code (`DownloadFile`, `DownloadAndMerge`,
`mergeWithFfmpeg`, `cleanupReadCloser.Close`, `GetWbiKeys`/`RefreshWbiKeys`)
becomes explicit state passing over a filesystem model (`FS`, a list of
existing paths) with external outcomes (HTTP transport, `os` calls,
`exec.LookPath`, process exit) supplied as oracle parameters.
-/

namespace Bili

/-! ### Byte-level primitives

Go strings are byte sequences; `[]byte(s)` is the UTF-8 encoding. We model a
Go string as a Lean `String` and recover its bytes with `strBytes`.
-/

/-- UTF-8 encoding of a single code point (given as `Char.toNat`). -/
def charUtf8 (c : Nat) : List Nat :=
  if c < 0x80 then [c]
  else if c < 0x800 then [0xC0 + c / 64, 0x80 + c % 64]
  else if c < 0x10000 then [0xE0 + c / 4096, 0x80 + (c / 64) % 64, 0x80 + c % 64]
  else [0xF0 + c / 262144, 0x80 + (c / 4096) % 64, 0x80 + (c / 64) % 64, 0x80 + c % 64]

/-- The UTF-8 bytes of a string, i.e. Go's `[]byte(s)` / `len(s)` view. -/
def strBytes (s : String) : List Nat :=
  s.data.flatMap (fun c => charUtf8 c.toNat)

/-! ### Byte-wise lexicographic order (Go `string <`, used by `sort.Strings`) -/

/-- Strict byte-wise lexicographic order on byte lists: Go's `a < b` on strings. -/
def lexLt : List Nat → List Nat → Bool
  | [], [] => false
  | [], _ :: _ => true
  | _ :: _, [] => false
  | a :: as, b :: bs => if a < b then true else if b < a then false else lexLt as bs

/-- Non-strict byte-wise order on strings, as used by Go's `sort.Strings`. -/
def strLeB (s t : String) : Bool := !(lexLt (strBytes t) (strBytes s))

/-! ### Insertion sort

Go's `sort.Strings` sorts ascending by `<` on strings (byte-wise lex). The
sorted output is value-determined, so we model it with insertion sort.
-/

/-- Insert `a` into `l` before the first element `b` with `le a b`. -/
def insLe (le : α → α → Bool) (a : α) : List α → List α
  | [] => [a]
  | b :: l => if le a b then a :: b :: l else b :: insLe le a l

/-- Insertion sort by the boolean relation `le`. -/
def isort (le : α → α → Bool) : List α → List α
  | [] => []
  | a :: l => insLe le a (isort le l)

/-! ### MD5 (crypto/md5, RFC 1321)

Executable MD5 over byte lists; 32-bit words are `Nat` reduced mod `2 ^ 32`.
`md5Hex` is Go's `hex.EncodeToString(md5.Sum(data)[:])` (lowercase).
-/

/-- The 64 per-step MD5 sine constants `K[i]`. -/
def md5K : List Nat :=
  [0xd76aa478, 0xe8c7b756, 0x242070db, 0xc1bdceee,
   0xf57c0faf, 0x4787c62a, 0xa8304613, 0xfd469501,
   0x698098d8, 0x8b44f7af, 0xffff5bb1, 0x895cd7be,
   0x6b901122, 0xfd987193, 0xa679438e, 0x49b40821,
   0xf61e2562, 0xc040b340, 0x265e5a51, 0xe9b6c7aa,
   0xd62f105d, 0x02441453, 0xd8a1e681, 0xe7d3fbc8,
   0x21e1cde6, 0xc33707d6, 0xf4d50d87, 0x455a14ed,
   0xa9e3e905, 0xfcefa3f8, 0x676f02d9, 0x8d2a4c8a,
   0xfffa3942, 0x8771f681, 0x6d9d6122, 0xfde5380c,
   0xa4beea44, 0x4bdecfa9, 0xf6bb4b60, 0xbebfbc70,
   0x289b7ec6, 0xeaa127fa, 0xd4ef3085, 0x04881d05,
   0xd9d4d039, 0xe6db99e5, 0x1fa27cf8, 0xc4ac5665,
   0xf4292244, 0x432aff97, 0xab9423a7, 0xfc93a039,
   0x655b59c3, 0x8f0ccc92, 0xffeff47d, 0x85845dd1,
   0x6fa87e4f, 0xfe2ce6e0, 0xa3014314, 0x4e0811a1,
   0xf7537e82, 0xbd3af235, 0x2ad7d2bb, 0xeb86d391]

/-- The 64 per-step MD5 left-rotation amounts `s[i]`. -/
def md5S : List Nat :=
  [7, 12, 17, 22, 7, 12, 17, 22, 7, 12, 17, 22, 7, 12, 17, 22,
   5, 9, 14, 20, 5, 9, 14, 20, 5, 9, 14, 20, 5, 9, 14, 20,
   4, 11, 16, 23, 4, 11, 16, 23, 4, 11, 16, 23, 4, 11, 16, 23,
   6, 10, 15, 21, 6, 10, 15, 21, 6, 10, 15, 21, 6, 10, 15, 21]

/-- Left rotation of a 32-bit word. -/
def rotl32 (x c : Nat) : Nat :=
  ((x <<< c) ||| (x >>> (32 - c))) % 4294967296

/-- Bitwise complement of a 32-bit word. -/
def not32 (x : Nat) : Nat := x ^^^ 0xffffffff

/-- MD5 padding: append `0x80`, zeros to 56 mod 64, then the 64-bit
little-endian bit length. -/
def md5Pad (msg : List Nat) : List Nat :=
  let bitLen := (8 * msg.length) % 18446744073709551616
  let zeros := (119 - msg.length % 64) % 64
  msg ++ [0x80] ++ List.replicate zeros 0 ++
    ((List.range 8).map (fun i => (bitLen >>> (8 * i)) % 256))

/-- Split a list into consecutive 64-element chunks. -/
def chunks64 : List Nat → List (List Nat)
  | [] => []
  | x :: xs => ((x :: xs).take 64) :: chunks64 ((x :: xs).drop 64)
termination_by l => l.length
decreasing_by
  simp only [List.length_drop, List.length_cons]
  omega

/-- The sixteen 32-bit little-endian words of a 64-byte chunk. -/
def md5Words (chunk : List Nat) : List Nat :=
  (List.range 16).map (fun j =>
    chunk.getD (4 * j) 0 + 256 * chunk.getD (4 * j + 1) 0 +
    65536 * chunk.getD (4 * j + 2) 0 + 16777216 * chunk.getD (4 * j + 3) 0)

/-- One MD5 step: state `(a, b, c, d)`, step index `i`, message words `m`. -/
def md5Step (m : List Nat) (st : Nat × Nat × Nat × Nat) (i : Nat) :
    Nat × Nat × Nat × Nat :=
  let (a, b, c, d) := st
  let (f, g) :=
    if i < 16 then ((b &&& c) ||| (not32 b &&& d), i)
    else if i < 32 then ((d &&& b) ||| (not32 d &&& c), (5 * i + 1) % 16)
    else if i < 48 then (b ^^^ c ^^^ d, (3 * i + 5) % 16)
    else (c ^^^ (b ||| not32 d), (7 * i) % 16)
  let f2 := (f + a + md5K.getD i 0 + m.getD g 0) % 4294967296
  (d, (b + rotl32 f2 (md5S.getD i 0)) % 4294967296, b, c)

/-- Process one 64-byte chunk, updating the running digest state. -/
def md5Chunk (st : Nat × Nat × Nat × Nat) (chunk : List Nat) :
    Nat × Nat × Nat × Nat :=
  let m := md5Words chunk
  let (a, b, c, d) := (List.range 64).foldl (md5Step m) st
  ((st.1 + a) % 4294967296, (st.2.1 + b) % 4294967296,
   (st.2.2.1 + c) % 4294967296, (st.2.2.2 + d) % 4294967296)

/-- The 16-byte MD5 digest of a byte list. -/
def md5Bytes (msg : List Nat) : List Nat :=
  let st := (chunks64 (md5Pad msg)).foldl md5Chunk
    (0x67452301, 0xefcdab89, 0x98badcfe, 0x10325476)
  let le4 := fun (w : Nat) => [w % 256, (w >>> 8) % 256, (w >>> 16) % 256, (w >>> 24) % 256]
  le4 st.1 ++ le4 st.2.1 ++ le4 st.2.2.1 ++ le4 st.2.2.2

/-- A lowercase hex digit character for `n < 16`. -/
def hexLowerChar (n : Nat) : Char :=
  Char.ofNat (if n < 10 then 48 + n else 87 + n)

/-- Lowercase hex encoding of a byte list, as Go's `hex.EncodeToString`. -/
def hexEncode (bs : List Nat) : String :=
  String.mk (bs.flatMap (fun b => [hexLowerChar (b / 16 % 16), hexLowerChar (b % 16)]))

/-- The lowercase-hex MD5 digest of a byte list. -/
def md5Hex (msg : List Nat) : String := hexEncode (md5Bytes msg)

/-! ### utils/wbi.go -/

/-- The fixed table `mixinKeyEncTab` shuffling `img_key + sub_key`. -/
def mixinKeyEncTab : List Nat :=
  [46, 47, 18, 2, 53, 8, 23, 32, 15, 50, 10, 31, 58, 3, 45, 35, 27, 43, 5, 49,
   33, 9, 42, 19, 29, 28, 14, 39, 12, 38, 41, 13, 37, 48, 7, 16, 24, 55, 40, 61,
   26, 17, 0, 1, 60, 51, 30, 4, 22, 25, 54, 21, 56, 59, 6, 63, 57, 62, 11, 36,
   20, 34, 44, 52]

/-- Function `GetMixinKey`, at the byte level (Go indexes the string's bytes): for
each table entry `i`, append `orig[i]` when `i < len(orig)` (else skip), then
truncate to 32 bytes if longer. -/
def GetMixinKey (orig : List Nat) : List Nat :=
  let result := mixinKeyEncTab.foldl
    (fun acc i => if i < orig.length then acc ++ [orig.getD i 0] else acc) []
  if result.length > 32 then result.take 32 else result

/-- Function `filterSpecialChars`: drop the runes `!` `'` `(` `)` `*` (codes
33, 39, 40, 41, 42), keep everything else. -/
def filterSpecialChars (s : String) : String :=
  String.mk (s.data.filter (fun c =>
    !(c.toNat == 33 || c.toNat == 39 || c.toNat == 40 || c.toNat == 41 || c.toNat == 42)))

/-- Bytes Go's `url.QueryEscape` leaves unescaped: alphanumerics and
`-` `_` `.` `~`. -/
def isUnreservedByte (b : Nat) : Bool :=
  (65 ≤ b && b ≤ 90) || (97 ≤ b && b ≤ 122) || (48 ≤ b && b ≤ 57) ||
    b == 45 || b == 95 || b == 46 || b == 126

/-- An uppercase hex digit byte for `n < 16`. -/
def hexUpperDigit (n : Nat) : Nat := if n < 10 then 48 + n else 55 + n

/-- Escape one byte the way `url.QueryEscape` does: unreserved bytes pass
through, space becomes `+` (43), others become `%XX`. -/
def escapeByte (b : Nat) : List Nat :=
  if isUnreservedByte b then [b]
  else if b == 32 then [43]
  else [37, hexUpperDigit (b / 16 % 16), hexUpperDigit (b % 16)]

/-- Function `urlEncode` = `url.QueryEscape`, producing the escaped byte sequence. -/
def urlEncode (s : String) : List Nat := (strBytes s).flatMap escapeByte

/-- The scalar values stored in the Go `map[string]interface{}` parameter
maps: strings and (64-bit) integers. -/
inductive GoValue where
  | vStr (s : String)
  | vInt (n : Int)
deriving DecidableEq, Repr

/-- Decimal digits of a natural number, most significant first. -/
def natDecimalChars (n : Nat) : List Char :=
  if n < 10 then [Char.ofNat (48 + n)]
  else natDecimalChars (n / 10) ++ [Char.ofNat (48 + n % 10)]
termination_by n
decreasing_by exact Nat.div_lt_self (by omega) (by omega)

/-- Go's decimal rendering of an integer (`fmt.Sprintf` with a `%v`/`%d`
verb). -/
def intDecimal (n : Int) : String :=
  if n < 0 then String.mk (Char.ofNat 45 :: natDecimalChars n.natAbs)
  else String.mk (natDecimalChars n.toNat)

/-- Go `fmt.Sprintf` with a `%v` verb on the scalar values used here. -/
def govFmt : GoValue → String
  | .vStr s => s
  | .vInt n => intDecimal n

/-- A Go `map[string]interface{}` modelled as an association list;
`mapInsert` is `m[k] = v` (replace any existing entry for `k`). -/
def mapInsert (m : List (String × GoValue)) (k : String) (v : GoValue) :
    List (String × GoValue) :=
  m.filter (fun p => p.1 != k) ++ [(k, v)]

/-- Map lookup: the value stored at `k`, if any. -/
def lookup : List (String × GoValue) → String → Option GoValue
  | [], _ => none
  | p :: rest, k => if p.1 == k then some p.2 else lookup rest k

/-- Map access `m[key]` where the key is known to be present (zero value
otherwise, as in Go). -/
def lookupD (m : List (String × GoValue)) (k : String) : GoValue :=
  (lookup m k).getD (.vStr "")

/-- The map EncWbi signs over: the caller's params plus `result["wts"] =
currTime`. -/
def wbiSignInput (params : List (String × GoValue)) (currTime : Int) :
    List (String × GoValue) :=
  mapInsert params "wts" (.vInt currTime)

/-- The key iteration order of EncWbi's serialization loop:
`sort.Strings` over all keys of the map. -/
def sortedWbiKeys (m : List (String × GoValue)) : List String :=
  isort strLeB (m.map Prod.fst)

/-- One `key=value` fragment of EncWbi's query string:
`urlEncode(key) ++ "=" ++ urlEncode(filterSpecialChars(fmt.Sprintf("%v", m[key])))`. -/
def wbiPiece (m : List (String × GoValue)) (key : String) : List Nat :=
  urlEncode key ++ [61] ++ urlEncode (filterSpecialChars (govFmt (lookupD m key)))

/-- The byte string EncWbi hashes: the `&`-joined fragments in sorted key
order with the raw mixin key appended (byte 38 is `&`). -/
def wbiCanonicalBytes (m : List (String × GoValue)) (mixinKey : List Nat) :
    List Nat :=
  List.intercalate [38] ((sortedWbiKeys m).map (wbiPiece m)) ++ mixinKey

/-- Function `EncWbi` with the wall clock injected as `currTime` (the code reads
`time.Now().Unix()`): add `wts`, sort keys, filter and escape values, build
the query string, append the mixin key, MD5 it, and store the hex digest
under `w_rid`. The caller's `params` value is copied, never mutated. -/
def EncWbi (params : List (String × GoValue)) (imgKey subKey : String)
    (currTime : Int) : List (String × GoValue) :=
  let mixinKey := GetMixinKey (strBytes (imgKey ++ subKey))
  let result := wbiSignInput params currTime
  let wRid := md5Hex (wbiCanonicalBytes result mixinKey)
  mapInsert result "w_rid" (.vStr wRid)

/-- Spec-side signature, following §4.2 of the spec word for word: insert
`wts`, sort the `key=value` pairs ascending by key, percent-encode keys and
sanitized values, join with `&`, append the raw mixing key (not
URL-encoded), and take the lowercase-hex MD5 of the UTF-8 bytes. -/
def specCanonicalBytes (fields : List (String × GoValue)) (mixinKey : List Nat) :
    List Nat :=
  let sortedPairs := isort (fun p q => strLeB p.1 q.1) fields
  List.intercalate [38] (sortedPairs.map
    (fun p => urlEncode p.1 ++ [61] ++ urlEncode (filterSpecialChars (govFmt p.2)))) ++
    mixinKey

/-- The signature the spec describes, as a function of the parameters, the
injected timestamp and the raw mixing key bytes. -/
def specSignature (params : List (String × GoValue)) (currTime : Int)
    (mixinKey : List Nat) : String :=
  md5Hex (specCanonicalBytes (mapInsert params "wts" (.vInt currTime)) mixinKey)

/-- Helper for `ExtractKeyFromURL`: the substring after the last `/` (code 47), or the
whole string when there is no `/`, with a final `.png` stripped. -/
def tailAfterSlash (cs : List Char) : List Char :=
  (cs.reverse.takeWhile (fun c => c.toNat != 47)).reverse

/-- Strip a trailing `.png`, as `strings.TrimSuffix(s, ".png")`. -/
def trimPngSuffix (cs : List Char) : List Char :=
  if cs.drop (cs.length - 4) == [Char.ofNat 46, Char.ofNat 112, Char.ofNat 110, Char.ofNat 103] &&
      4 ≤ cs.length then
    cs.take (cs.length - 4)
  else cs

/-- Function `ExtractKeyFromURL` from utils/wbi.go. -/
def ExtractKeyFromURL (u : String) : String :=
  String.mk (trimPngSuffix (tailAfterSlash u.data))

/-! ### Go errors and a filesystem model

`GoErr` mirrors how the service wraps errors with `fmt.Errorf`: a bare
message (`errors.New` / an external error), a `"prefix：%w"` wrap, the
status-code error of `DownloadFile`, and the ffmpeg failure that also
carries the process's combined output. `FS` is the set of existing paths,
as a list.
-/

inductive GoErr where
  | msg (s : String)
  | wrap (pre : String) (inner : GoErr)
  | status (pre : String) (code : Nat)
  | execFailed (pre : String) (inner : GoErr) (output : String)
deriving DecidableEq, Repr

/-- The filesystem: the list of paths that currently exist. -/
abbrev FS := List String

/-- Go `os.Create` / `os.MkdirTemp`: the path exists afterwards. -/
def fsCreate (p : String) (fs : FS) : FS :=
  if p ∈ fs then fs else p :: fs

/-- Go `os.Remove`: the path no longer exists (removing a missing path is a
swallowed no-op here, as in the code's cleanup helpers). -/
def fsRemove (p : String) (fs : FS) : FS :=
  fs.filter (fun q => q != p)

/-- Go `os.RemoveAll dir`: the directory and everything under it are gone. -/
def fsRemoveAll (dir : String) (fs : FS) : FS :=
  fs.filter (fun q => !(q == dir || (dir ++ "/").isPrefixOf q))

/-! ### service downloader (src/unnamed/part_000, package service) -/

/-- External outcomes of one `DownloadFile` call: the `http.NewRequest`
error, the transport (`httpClient.Do`) error, the response status, the
`os.Create` error and the `io.Copy` error. -/
structure DlEnv where
  reqErr : Option GoErr
  respErr : Option GoErr
  statusCode : Nat
  createErr : Option GoErr
  copyErr : Option GoErr
deriving DecidableEq, Repr

/-- Function `DownloadFile(url, referer, filename)`: create the request, send it,
reject any status other than 200 (`http.StatusOK`) carrying the code,
create the destination file, stream the body into it. Returns the error
and the filesystem after the call. -/
def DownloadFile (env : DlEnv) (filename : String) (fs : FS) :
    Option GoErr × FS :=
  match env.reqErr with
  | some e => (some (.wrap "创建请求失败" e), fs)
  | none =>
    match env.respErr with
    | some e => (some (.wrap "请求失败" e), fs)
    | none =>
      if env.statusCode ≠ 200 then (some (.status "下载失败，状态码" env.statusCode), fs)
      else
        match env.createErr with
        | some e => (some (.wrap "创建文件失败" e), fs)
        | none =>
          let fs1 := fsCreate filename fs
          match env.copyErr with
          | some e => (some (.wrap "写入文件失败" e), fs1)
          | none => (none, fs1)

/-- The `DownloadResult` record sent on the result channel. -/
structure DownloadResult where
  videoPath : String
  audioPath : String
  err : Option GoErr
deriving DecidableEq, Repr

/-- The collection loop of `DownloadAndMerge`: classify each received
result as the video one (`VideoPath != ""`) or the audio one. -/
def collectErrors (rs : List DownloadResult) : Option GoErr × Option GoErr :=
  rs.foldl
    (fun acc r =>
      match r.err with
      | none => acc
      | some e => if r.videoPath != "" then (some e, acc.2) else (acc.1, some e))
    (none, none)

/-- Function `cleanupFiles(tempDir, files...)`: remove each non-empty file path,
then `RemoveAll` the directory when it is non-empty. -/
def cleanupFiles (tempDir : String) (files : List String) (fs : FS) : FS :=
  let fs1 := files.foldl (fun acc f => if f != "" then fsRemove f acc else acc) fs
  if tempDir != "" then fsRemoveAll tempDir fs1 else fs1

/-- Observable action of the muxer. -/
inductive MuxEvent where
  | invoked (path : String) (args : List String)
deriving DecidableEq, Repr

/-- Function `mergeWithFfmpeg`: look up `ffmpeg` on the path (absence is a
distinguishable failure and nothing is invoked); otherwise invoke
`ffmpeg -y -i video -i audio -c copy output`; a nonzero exit produces an
error carrying the combined output. Oracles: `lookPathRes` for
`exec.LookPath`, `runErr`/`runOutput` for `cmd.CombinedOutput()`. -/
def mergeWithFfmpeg (lookPathRes : Except GoErr String)
    (runErr : Option GoErr) (runOutput : String)
    (videoPath audioPath outputPath : String) :
    Option GoErr × List MuxEvent :=
  match lookPathRes with
  | .error e => (some (.wrap "未找到 FFmpeg，请确保已安装" e), [])
  | .ok ffmpegPath =>
    let args := ["-y", "-i", videoPath, "-i", audioPath, "-c", "copy", outputPath]
    match runErr with
    | some e => (some (.execFailed "FFmpeg 执行失败" e runOutput), [.invoked ffmpegPath args])
    | none => (none, [.invoked ffmpegPath args])

/-! ### ManagedStream: cleanupReadCloser -/

/-- Structure `cleanupReadCloser`: the open output file handle (whose `Close` result
is the oracle `closeResult`), the paths to reclaim, and the `sync.Once`
state `done`. -/
structure CleanupReadCloser where
  filePath : String
  tempDir : String
  done : Bool
  closeResult : Option GoErr
deriving DecidableEq, Repr

/-- Cleanup side effects, in the order they are performed. -/
inductive CleanupEvent where
  | closeHandle
  | removeFile (p : String)
  | removeDirAll (p : String)
deriving DecidableEq, Repr

/-- Method `cleanupReadCloser.Close`: inside `once.Do`, close the file handle
first, then `os.Remove` the output file, then `os.RemoveAll` the temp
directory; outside the first call nothing runs and `err` stays nil. -/
def cleanupClose (c : CleanupReadCloser) (fs : FS) :
    Option GoErr × CleanupReadCloser × FS × List CleanupEvent :=
  if c.done then (none, c, fs, [])
  else
    let fs1 := fsRemove c.filePath fs
    let fs2 := fsRemoveAll c.tempDir fs1
    (c.closeResult, { c with done := true }, fs2,
      [.closeHandle, .removeFile c.filePath, .removeDirAll c.tempDir])

/-! ### DownloadAndMerge -/

/-- External outcomes of one `DownloadAndMerge` run. `stamp` is
`time.Now().UnixNano()`; each fetch reports its `DownloadFile` error and
whether it reached `os.Create` (so the partial file exists); `videoFirst`
is the nondeterministic channel delivery order; the mux and `os.Open`
oracles follow. -/
structure MergeEnv where
  tempDir : String
  stamp : Nat
  mkdirErr : Option GoErr
  videoErr : Option GoErr
  videoCreated : Bool
  audioErr : Option GoErr
  audioCreated : Bool
  videoFirst : Bool
  lookPathRes : Except GoErr String
  runErr : Option GoErr
  runOutput : String
  openErr : Option GoErr
  closeResult : Option GoErr
deriving Repr

/-- Go `filepath.Join(tempDir, fmt.Sprintf("video_%d.mp4", timestamp))`. -/
def videoPathOf (env : MergeEnv) : String :=
  env.tempDir ++ "/video_" ++ intDecimal env.stamp ++ ".mp4"

def audioPathOf (env : MergeEnv) : String :=
  env.tempDir ++ "/audio_" ++ intDecimal env.stamp ++ ".m4a"

def outputPathOf (env : MergeEnv) : String :=
  env.tempDir ++ "/output_" ++ intDecimal env.stamp ++ ".mp4"

/-- Function `DownloadAndMerge`: make the temp dir, derive the three paths, run both
fetches concurrently (their file creations land on disk; their results
arrive on the channel in either order), collect and classify both results,
fail with the video error first (cleaning everything up), then the audio
error, then mux, clean the two inputs on success, and open the output,
wrapping it in a `cleanupReadCloser`. -/
def DownloadAndMerge (env : MergeEnv) (fs0 : FS) :
    Except GoErr CleanupReadCloser × FS :=
  match env.mkdirErr with
  | some e => (.error (.wrap "创建临时目录失败" e), fs0)
  | none =>
    let fs1 := fsCreate env.tempDir fs0
    let videoPath := videoPathOf env
    let audioPath := audioPathOf env
    let outputPath := outputPathOf env
    let fs2 := if env.videoCreated then fsCreate videoPath fs1 else fs1
    let fs3 := if env.audioCreated then fsCreate audioPath fs2 else fs2
    let vRes : DownloadResult := ⟨videoPath, "", env.videoErr⟩
    let aRes : DownloadResult := ⟨"", audioPath, env.audioErr⟩
    let results := if env.videoFirst then [vRes, aRes] else [aRes, vRes]
    let (videoErr, audioErr) := collectErrors results
    match videoErr with
    | some ve =>
      (.error (.wrap "视频下载失败" ve),
        cleanupFiles env.tempDir [videoPath, audioPath, outputPath] fs3)
    | none =>
      match audioErr with
      | some ae =>
        (.error (.wrap "音频下载失败" ae),
          cleanupFiles env.tempDir [videoPath, audioPath, outputPath] fs3)
      | none =>
        match (mergeWithFfmpeg env.lookPathRes env.runErr env.runOutput
            videoPath audioPath outputPath).1 with
        | some me =>
          (.error (.wrap "FFmpeg 合并失败" me),
            cleanupFiles env.tempDir [videoPath, audioPath, outputPath] fs3)
        | none =>
          let fs4 := fsCreate outputPath fs3
          let fs5 := cleanupFiles "" [videoPath, audioPath] fs4
          match env.openErr with
          | some oe => (.error (.wrap "打开输出文件失败" oe), fsRemoveAll env.tempDir fs5)
          | none =>
            (.ok ⟨outputPath, env.tempDir, false, env.closeResult⟩, fs5)

/-! ### ApiService WBI key cache (GetWbiKeys / RefreshWbiKeys) -/

structure WbiKeyPair where
  imgKey : String
  subKey : String
deriving DecidableEq, Repr

/-- The fields of the nav API response the cache consumes. -/
structure NavResp where
  code : Int
  message : String
  imgUrl : String
  subUrl : String
deriving DecidableEq, Repr

/-- The cache state: `nil` (Empty) or a cached pair (Populated). -/
structure ApiState where
  wbiKeys : Option WbiKeyPair
deriving DecidableEq, Repr

/-- What the running goroutine currently holds on `s.wbiMutex`
(a `sync.RWMutex`, which is not reentrant): nothing, a read lock, or the
write lock. -/
inductive RWLock where
  | unlocked
  | rlocked
  | wlocked
deriving DecidableEq, Repr

/-- Outcome of a call on the shared `ApiService` in the single-goroutine
model: the call either returns a value, or blocks forever on `s.wbiMutex`
(a lock acquisition that no other goroutine can ever satisfy). Both carry
the cache state and the number of external fetches performed up to that
point. -/
inductive CallOutcome (α : Type) where
  | returns (v : α) (st : ApiState) (fetches : Nat)
  | deadlock (st : ApiState) (fetches : Nat)
deriving DecidableEq, Repr

/-- Function `GetWbiKeys`, with the `RWMutex` discipline modelled for the
calling goroutine: `held` is what the caller already holds on
`s.wbiMutex`. The body first takes `RLock()` — which blocks forever when
this same goroutine already holds the write lock, since only it could
release that lock — reads the cache and releases. On a cache hit the pair
is served with no fetch. On a miss it takes the write `Lock()` — which
blocks when the caller still holds any lock — re-checks, performs exactly
one fetch of the nav endpoint (`fetch` is the oracle for the whole HTTP
round-trip plus JSON decode), validates it, extracts the two keys from the
URLs, and populates the cache. -/
def GetWbiKeys (held : RWLock) (st : ApiState) (fetch : Except GoErr NavResp) :
    CallOutcome (Except GoErr WbiKeyPair) :=
  if held = .wlocked then .deadlock st 0
  else
    match st.wbiKeys with
    | some k => .returns (.ok k) st 0
    | none =>
      if held ≠ .unlocked then .deadlock st 0
      else
        match fetch with
        | .error e => .returns (.error e) st 1
        | .ok resp =>
          if resp.code ≠ 0 then
            .returns (.error (.msg ("API returned error: code=" ++ intDecimal resp.code ++
              ", message=" ++ resp.message))) st 1
          else
            let imgKey := ExtractKeyFromURL resp.imgUrl
            let subKey := ExtractKeyFromURL resp.subUrl
            if imgKey == "" || subKey == "" then
              .returns (.error (.msg "Invalid WBI key format")) st 1
            else
              .returns (.ok ⟨imgKey, subKey⟩) ⟨some ⟨imgKey, subKey⟩⟩ 1

/-- Function `RefreshWbiKeys`, entered with no lock held: it takes the
write lock (`s.wbiMutex.Lock()` with a deferred unlock), clears the cache
(`s.wbiKeys = nil`), and returns `s.GetWbiKeys()` — which therefore runs
with the write lock of the same non-reentrant mutex still held by this
goroutine. -/
def RefreshWbiKeys (st : ApiState) (fetch : Except GoErr NavResp) :
    CallOutcome (Except GoErr WbiKeyPair) :=
  GetWbiKeys .wlocked { st with wbiKeys := none } fetch

/-! ### Helper lemmas -/

theorem strBytes_append (s t : String) :
    strBytes (s ++ t) = strBytes s ++ strBytes t := by
  simp [strBytes]

theorem lexLt_irrefl (l : List Nat) : lexLt l l = false := by
  induction l with
  | nil => rfl
  | cons a as ih => simp [lexLt, ih]

theorem lexLt_trichot (as bs : List Nat) :
    lexLt as bs = true ∨ as = bs ∨ lexLt bs as = true := by
  induction as generalizing bs with
  | nil => cases bs with
    | nil => right; left; rfl
    | cons b bs => left; rfl
  | cons a as ih =>
    cases bs with
    | nil => right; right; rfl
    | cons b bs =>
      rcases Nat.lt_trichotomy a b with h | h | h
      · left; simp [lexLt, h]
      · subst h
        rcases ih bs with h2 | h2 | h2
        · left; simp [lexLt, h2]
        · right; left; rw [h2]
        · right; right; simp [lexLt, h2]
      · right; right; simp [lexLt, h]

theorem lexLt_trans {as bs cs : List Nat}
    (h1 : lexLt as bs = true) (h2 : lexLt bs cs = true) : lexLt as cs = true := by
  induction as generalizing bs cs with
  | nil =>
    cases cs with
    | nil =>
      cases bs with
      | nil => exact h1
      | cons b bs => simp [lexLt] at h2
    | cons c cs => rfl
  | cons a as ih =>
    cases bs with
    | nil => simp [lexLt] at h1
    | cons b bs =>
      cases cs with
      | nil => simp [lexLt] at h2
      | cons c cs =>
        simp only [lexLt] at h1 h2 ⊢
        by_cases hab : a < b
        · by_cases hbc : b < c
          · simp [Nat.lt_trans hab hbc]
          · by_cases hcb : c < b
            · simp [hbc, hcb] at h2
            · have hbc' : b = c := Nat.le_antisymm (Nat.le_of_not_lt hcb) (Nat.le_of_not_lt hbc)
              subst hbc'
              simp [hab]
        · by_cases hba : b < a
          · simp [hab, hba] at h1
          · have hab' : b = a := Nat.le_antisymm (Nat.le_of_not_lt hab) (Nat.le_of_not_lt hba)
            subst hab'
            simp only [if_neg hab, if_neg (Nat.lt_irrefl b)] at h1
            by_cases hbc : b < c
            · simp [hbc]
            · by_cases hcb : c < b
              · simp [hbc, hcb] at h2
              · simp only [if_neg hbc, if_neg hcb] at h2 ⊢
                exact ih h1 h2

theorem lexLt_asymm {as bs : List Nat} (h : lexLt as bs = true) :
    lexLt bs as = false := by
  by_contra hc
  have h2 : lexLt bs as = true := by
    cases hb : lexLt bs as with
    | false => exact absurd hb hc
    | true => rfl
  have := lexLt_trans h h2
  rw [lexLt_irrefl] at this
  exact Bool.noConfusion this

theorem strLeB_total (s t : String) : strLeB s t = true ∨ strLeB t s = true := by
  rcases lexLt_trichot (strBytes s) (strBytes t) with h | h | h
  · left; simp [strLeB, lexLt_asymm h]
  · left; simp [strLeB, h, lexLt_irrefl]
  · right; simp [strLeB, lexLt_asymm h]

theorem strLeB_trans {s t u : String}
    (h1 : strLeB s t = true) (h2 : strLeB t u = true) : strLeB s u = true := by
  simp only [strLeB, Bool.not_eq_true'] at h1 h2 ⊢
  by_contra hc
  have hus : lexLt (strBytes u) (strBytes s) = true := by
    cases hx : lexLt (strBytes u) (strBytes s) with
    | false => exact absurd hx hc
    | true => rfl
  rcases lexLt_trichot (strBytes s) (strBytes t) with h | h | h
  · have := lexLt_trans hus h
    rw [this] at h2; exact Bool.noConfusion h2
  · rw [h] at hus; rw [hus] at h2; exact Bool.noConfusion h2
  · rw [h] at h1; exact Bool.noConfusion h1

theorem insLe_perm (le : α → α → Bool) (a : α) (l : List α) :
    List.Perm (insLe le a l) (a :: l) := by
  induction l with
  | nil => exact List.Perm.refl _
  | cons b l ih =>
    simp only [insLe]
    by_cases h : le a b = true
    · simp [h]
    · simp only [h]
      rw [if_neg (by simp [h])]
      exact ((ih.cons b).trans (List.Perm.swap a b l))

theorem isort_perm (le : α → α → Bool) (l : List α) :
    List.Perm (isort le l) l := by
  induction l with
  | nil => exact List.Perm.refl _
  | cons a l ih => exact (insLe_perm le a (isort le l)).trans (ih.cons a)

theorem insLe_pairwise (le : α → α → Bool)
    (htot : ∀ x y, le x y = true ∨ le y x = true)
    (htrans : ∀ {x y z}, le x y = true → le y z = true → le x z = true)
    (a : α) (l : List α) (h : l.Pairwise (fun x y => le x y = true)) :
    (insLe le a l).Pairwise (fun x y => le x y = true) := by
  induction l with
  | nil => simp [insLe]
  | cons b l ih =>
    rcases h with _ | ⟨hb, hl⟩
    simp only [insLe]
    by_cases hab : le a b = true
    · rw [if_pos hab]
      refine List.Pairwise.cons ?_ (List.Pairwise.cons hb hl)
      intro x hx
      rcases List.mem_cons.mp hx with rfl | hx
      · exact hab
      · exact htrans hab (hb x hx)
    · rw [if_neg (by simp [hab])]
      have hba : le b a = true := (htot a b).resolve_left hab
      refine List.Pairwise.cons ?_ (ih hl)
      intro x hx
      have := (insLe_perm le a l).mem_iff.mp hx
      rcases List.mem_cons.mp this with rfl | hx2
      · exact hba
      · exact hb x hx2

theorem isort_pairwise (le : α → α → Bool)
    (htot : ∀ x y, le x y = true ∨ le y x = true)
    (htrans : ∀ {x y z}, le x y = true → le y z = true → le x z = true)
    (l : List α) : (isort le l).Pairwise (fun x y => le x y = true) := by
  induction l with
  | nil => simp [isort]
  | cons a l ih => exact insLe_pairwise le htot (fun h1 h2 => htrans h1 h2) a _ ih

theorem insLe_map (f : α → β) (lea : α → α → Bool) (leb : β → β → Bool)
    (hle : ∀ x y, lea x y = leb (f x) (f y)) (a : α) (l : List α) :
    (insLe lea a l).map f = insLe leb (f a) (l.map f) := by
  induction l with
  | nil => rfl
  | cons b l ih =>
    simp only [insLe, List.map_cons]
    rw [hle a b]
    by_cases h : leb (f a) (f b) = true
    · simp [h]
    · rw [if_neg (by simp [h]), if_neg (by simp [h])]
      simp [ih]

theorem isort_map (f : α → β) (lea : α → α → Bool) (leb : β → β → Bool)
    (hle : ∀ x y, lea x y = leb (f x) (f y)) (l : List α) :
    (isort lea l).map f = isort leb (l.map f) := by
  induction l with
  | nil => rfl
  | cons a l ih =>
    simp only [isort, List.map_cons]
    rw [insLe_map f lea leb hle, ih]

theorem foldl_if_append (tab : List Nat) (n : Nat) (f : Nat → Nat) (acc : List Nat) :
    tab.foldl (fun acc i => if i < n then acc ++ [f i] else acc) acc
      = acc ++ (tab.filter (fun i => i < n)).map f := by
  induction tab generalizing acc with
  | nil => simp
  | cons i tab ih =>
    simp only [List.foldl_cons]
    by_cases h : i < n
    · rw [if_pos h, List.filter_cons_of_pos (by simp [h]), List.map_cons, ih]
      simp
    · rw [if_neg h, List.filter_cons_of_neg (by simp [h])]
      exact ih acc

theorem getMixinKey_closed (orig : List Nat) :
    GetMixinKey orig =
      (if ((mixinKeyEncTab.filter (fun i => i < orig.length)).map
          (fun i => orig.getD i 0)).length > 32 then
        ((mixinKeyEncTab.filter (fun i => i < orig.length)).map
          (fun i => orig.getD i 0)).take 32
      else (mixinKeyEncTab.filter (fun i => i < orig.length)).map
          (fun i => orig.getD i 0)) := by
  unfold GetMixinKey
  rw [foldl_if_append mixinKeyEncTab orig.length (fun i => orig.getD i 0) []]
  simp

theorem lookup_filter_ne (m : List (String × GoValue)) (k : String) :
    lookup (m.filter (fun p => p.1 != k)) k = none := by
  induction m with
  | nil => rfl
  | cons p rest ih =>
    by_cases h : p.1 = k
    · rw [List.filter_cons_of_neg (by simp [h])]
      exact ih
    · rw [List.filter_cons_of_pos (by simp [h])]
      simp only [lookup]
      rw [if_neg (by simp [h])]
      exact ih

theorem lookup_append_none {m1 : List (String × GoValue)} {k : String}
    (h : lookup m1 k = none) (m2 : List (String × GoValue)) :
    lookup (m1 ++ m2) k = lookup m2 k := by
  induction m1 with
  | nil => rfl
  | cons p rest ih =>
    simp only [lookup] at h
    by_cases hp : (p.1 == k) = true
    · rw [if_pos hp] at h
      exact absurd h (by simp)
    · rw [if_neg hp] at h
      simp only [List.cons_append, lookup]
      rw [if_neg hp]
      exact ih h

theorem lookup_mapInsert_self (m : List (String × GoValue)) (k : String) (v : GoValue) :
    lookup (mapInsert m k v) k = some v := by
  unfold mapInsert
  rw [lookup_append_none (lookup_filter_ne m k)]
  simp [lookup]

theorem lookup_mapInsert_ne (m : List (String × GoValue)) (k : String) (v : GoValue)
    {k' : String} (h : k' ≠ k) : lookup (mapInsert m k v) k' = lookup m k' := by
  unfold mapInsert
  induction m with
  | nil =>
    simp only [List.filter_nil, List.nil_append, lookup]
    rw [if_neg (by simp only [beq_iff_eq]; exact fun he => h he.symm)]
  | cons p rest ih =>
    by_cases hp : p.1 = k
    · rw [List.filter_cons_of_neg (by simp [hp])]
      rw [ih]
      simp only [lookup]
      rw [if_neg (by simp only [beq_iff_eq]; rw [hp]; exact fun he => h he.symm)]
    · rw [List.filter_cons_of_pos (by simp [hp])]
      simp only [List.cons_append, lookup]
      by_cases hpk : (p.1 == k') = true
      · rw [if_pos hpk, if_pos hpk]
      · rw [if_neg hpk, if_neg hpk]
        exact ih

theorem lookup_eq_some_of_mem_nodup {m : List (String × GoValue)} {k : String}
    {v : GoValue} (hn : (m.map Prod.fst).Nodup) (hm : (k, v) ∈ m) :
    lookup m k = some v := by
  induction m with
  | nil => exact absurd hm (List.not_mem_nil _)
  | cons p rest ih =>
    rw [List.map_cons, List.nodup_cons] at hn
    rcases List.mem_cons.mp hm with rfl | hm2
    · simp [lookup]
    · have hne : p.1 ≠ k := by
        intro he
        exact hn.1 (he ▸ List.mem_map_of_mem Prod.fst hm2)
      simp only [lookup]
      rw [if_neg (by simp [hne])]
      exact ih hn.2 hm2

/-! ### Claim C4 -/

/-- C4: `GetMixinKey` is a pure function (a Lean `def`) whose output always
has length at most 32; its length equals the number of table positions with
index below the input length, capped at 32 (out-of-range positions are
skipped, never padded — every output byte comes from the input); and every
length-64 input yields exactly 32 bytes. -/
theorem getMixinKey_spec (orig : List Nat) :
    (GetMixinKey orig).length ≤ 32 ∧
    (GetMixinKey orig).length
      = min 32 ((mixinKeyEncTab.filter (fun i => i < orig.length)).length) ∧
    (∀ b ∈ GetMixinKey orig, b ∈ orig) ∧
    (orig.length = 64 → (GetMixinKey orig).length = 32) := by
  have hc := getMixinKey_closed orig
  set res := (mixinKeyEncTab.filter (fun i => i < orig.length)).map
    (fun i => orig.getD i 0) with hres
  have hreslen : res.length = (mixinKeyEncTab.filter (fun i => i < orig.length)).length := by
    rw [hres, List.length_map]
  have hlen : (GetMixinKey orig).length
      = min 32 ((mixinKeyEncTab.filter (fun i => i < orig.length)).length) := by
    rw [hc]
    by_cases h : res.length > 32
    · rw [if_pos h, List.length_take, hreslen]
    · rw [if_neg h, ← hreslen, Nat.min_eq_right (Nat.le_of_not_lt h)]
  refine ⟨by rw [hlen]; exact Nat.min_le_left _ _, hlen, ?_, ?_⟩
  · intro b hb
    rw [hc] at hb
    have hbres : b ∈ res := by
      by_cases h : res.length > 32
      · rw [if_pos h] at hb
        exact List.mem_of_mem_take hb
      · rwa [if_neg h] at hb
    rw [hres] at hbres
    rcases List.mem_map.mp hbres with ⟨i, hi, hib⟩
    have hilt : i < orig.length := by
      have := List.mem_filter.mp hi
      simpa using this.2
    rw [List.getD_eq_getElem orig 0 hilt] at hib
    exact hib ▸ List.getElem_mem hilt
  · intro h64
    rw [hlen, h64]
    have : (mixinKeyEncTab.filter (fun i => i < 64)).length = 64 := by decide
    rw [this]
    decide

/-- C4 witness: a concrete 64-byte input yields exactly 32 bytes. -/
theorem getMixinKey_spec_witness :
    (GetMixinKey (List.range 64)).length = 32 :=
  (getMixinKey_spec (List.range 64)).2.2.2 (by simp)

/-! ### Claim C9 -/

/-- C9: the map returned by `EncWbi` holds exactly the original parameters
with unchanged values, plus the `wts` timestamp, plus the signature under
the fixed name `w_rid`: looking up `w_rid` yields the computed signature,
looking up `wts` yields the injected timestamp, and looking up any other
key yields exactly what the input map held there (in particular, nothing
else was added). The input `params` itself is a value the function only
reads — the Go code copies it into a fresh map — so the caller's mapping is
not mutated. -/
theorem encWbi_result_contents (params : List (String × GoValue))
    (imgKey subKey : String) (currTime : Int) (k : String) :
    lookup (EncWbi params imgKey subKey currTime) k =
      if k = "w_rid" then
        some (.vStr (md5Hex (wbiCanonicalBytes (wbiSignInput params currTime)
          (GetMixinKey (strBytes (imgKey ++ subKey))))))
      else if k = "wts" then some (.vInt currTime)
      else lookup params k := by
  unfold EncWbi
  by_cases hw : k = "w_rid"
  · rw [if_pos hw, hw]
    exact lookup_mapInsert_self _ _ _
  · rw [if_neg hw]
    rw [lookup_mapInsert_ne _ _ _ hw]
    unfold wbiSignInput
    by_cases ht : k = "wts"
    · rw [if_pos ht, ht]
      exact lookup_mapInsert_self _ _ _
    · rw [if_neg ht]
      exact lookup_mapInsert_ne _ _ _ ht

/-! ### Claim C5 -/

theorem strLeB_lt_of_ne {a b : String} (hle : strLeB a b = true)
    (hne : strBytes a ≠ strBytes b) : lexLt (strBytes a) (strBytes b) = true := by
  rcases lexLt_trichot (strBytes a) (strBytes b) with h | h | h
  · exact h
  · exact absurd h hne
  · exfalso
    simp only [strLeB, Bool.not_eq_true'] at hle
    rw [h] at hle
    exact Bool.noConfusion hle

/-- C5: the serialization loop of `EncWbi` iterates all field names —
the caller's keys and the synthetic `wts` — in strictly ascending byte-wise
lexicographic order (assuming the map keys are distinct byte strings, which
Go's `map` guarantees). -/
theorem encWbi_keys_sorted (params : List (String × GoValue)) (currTime : Int)
    (h : ((wbiSignInput params currTime).map (fun p => strBytes p.1)).Nodup) :
    (sortedWbiKeys (wbiSignInput params currTime)).Pairwise
      (fun a b => lexLt (strBytes a) (strBytes b) = true) ∧
    "wts" ∈ sortedWbiKeys (wbiSignInput params currTime) ∧
    (∀ p ∈ params, p.1 ∈ sortedWbiKeys (wbiSignInput params currTime)) := by
  have hperm : List.Perm (sortedWbiKeys (wbiSignInput params currTime))
      ((wbiSignInput params currTime).map Prod.fst) := isort_perm _ _
  refine ⟨?_, ?_, ?_⟩
  · have hsorted := isort_pairwise strLeB strLeB_total
      (fun h1 h2 => strLeB_trans h1 h2) ((wbiSignInput params currTime).map Prod.fst)
    have hnodup : ((sortedWbiKeys (wbiSignInput params currTime)).map strBytes).Nodup := by
      refine ((hperm.map strBytes).nodup_iff).mpr ?_
      rw [List.map_map]
      exact h
    have hpairne : (sortedWbiKeys (wbiSignInput params currTime)).Pairwise
        (fun a b => strBytes a ≠ strBytes b) := List.pairwise_map.mp hnodup
    exact (hsorted.and hpairne).imp (fun hx => strLeB_lt_of_ne hx.1 hx.2)
  · apply hperm.mem_iff.mpr
    unfold wbiSignInput mapInsert
    simp
  · intro p hp
    apply hperm.mem_iff.mpr
    unfold wbiSignInput mapInsert
    rw [List.map_append]
    by_cases hw : p.1 = "wts"
    · simp [hw]
    · exact List.mem_append_left _
        (List.mem_map_of_mem Prod.fst (List.mem_filter.mpr ⟨hp, by simp [hw]⟩))

/-- C5 witness at the spec's own example: keys `zeta` and `alpha` (plus
`wts`) are iterated in strictly ascending order, so `alpha` precedes
`zeta`. -/
theorem encWbi_keys_sorted_witness :
    (sortedWbiKeys (wbiSignInput
        [("zeta", GoValue.vStr "1"), ("alpha", GoValue.vStr "2")] 0)).Pairwise
      (fun a b => lexLt (strBytes a) (strBytes b) = true) ∧
    "wts" ∈ sortedWbiKeys (wbiSignInput
        [("zeta", GoValue.vStr "1"), ("alpha", GoValue.vStr "2")] 0) ∧
    (∀ p ∈ [("zeta", GoValue.vStr "1"), ("alpha", GoValue.vStr "2")],
      p.1 ∈ sortedWbiKeys (wbiSignInput
        [("zeta", GoValue.vStr "1"), ("alpha", GoValue.vStr "2")] 0)) :=
  encWbi_keys_sorted [("zeta", GoValue.vStr "1"), ("alpha", GoValue.vStr "2")] 0
    (by decide)

/-! ### Claim C1 -/

theorem canonical_eq (m : List (String × GoValue)) (mixin : List Nat)
    (h : (m.map Prod.fst).Nodup) :
    wbiCanonicalBytes m mixin = specCanonicalBytes m mixin := by
  unfold wbiCanonicalBytes specCanonicalBytes
  congr 1
  congr 1
  have hmap : sortedWbiKeys m = (isort (fun p q => strLeB p.1 q.1) m).map Prod.fst := by
    unfold sortedWbiKeys
    exact (isort_map Prod.fst (fun p q => strLeB p.1 q.1) strLeB (fun x y => rfl) m).symm
  rw [hmap, List.map_map]
  apply List.map_congr_left
  intro p hp
  obtain ⟨k, v⟩ := p
  have hpm : (k, v) ∈ m := (isort_perm _ m).mem_iff.mp hp
  have hl : lookup m k = some v := lookup_eq_some_of_mem_nodup h hpm
  show wbiPiece m k = _
  unfold wbiPiece lookupD
  rw [hl]
  rfl

/-- C1: for every parameter map (with distinct keys, as Go's `map`
guarantees) and key pair, the `w_rid` signature produced by `EncWbi` equals
the lowercase-hex MD5 digest of the spec's canonical query string — sorted
`key=value` pairs with percent-encoded keys and sanitized, percent-encoded
values joined with `&` — with the raw mixing key appended directly at the
end without URL-encoding. The canonicalization input is built from the
parameters and `wts` only, before `w_rid` exists, so the signature field is
never part of it. -/
theorem encWbi_wrid_eq_specSignature (params : List (String × GoValue))
    (imgKey subKey : String) (currTime : Int)
    (h : ((wbiSignInput params currTime).map Prod.fst).Nodup) :
    lookup (EncWbi params imgKey subKey currTime) "w_rid" =
      some (.vStr (specSignature params currTime
        (GetMixinKey (strBytes (imgKey ++ subKey))))) := by
  show lookup (mapInsert (wbiSignInput params currTime) "w_rid"
      (.vStr (md5Hex (wbiCanonicalBytes (wbiSignInput params currTime)
        (GetMixinKey (strBytes (imgKey ++ subKey))))))) "w_rid" = _
  rw [lookup_mapInsert_self]
  show _ = some (GoValue.vStr (md5Hex (specCanonicalBytes (wbiSignInput params currTime)
    (GetMixinKey (strBytes (imgKey ++ subKey))))))
  rw [canonical_eq _ _ h]

/-- C1 witness: concrete parameters with distinct keys. -/
theorem encWbi_wrid_eq_specSignature_witness :
    lookup (EncWbi [("bvid", GoValue.vStr "BV1xx411c7mD"), ("qn", GoValue.vInt 80)]
        "7cd084941338484aae1ad9425b84077c" "4932caff0ff746eab6f01bf08b70ac45"
        1700000000) "w_rid" =
      some (.vStr (specSignature [("bvid", GoValue.vStr "BV1xx411c7mD"), ("qn", GoValue.vInt 80)]
        1700000000 (GetMixinKey (strBytes ("7cd084941338484aae1ad9425b84077c" ++
          "4932caff0ff746eab6f01bf08b70ac45"))))) :=
  encWbi_wrid_eq_specSignature _ _ _ _ (by decide)

/-! ### Claims C6 and C10 (DownloadFile) -/

/-- C6 counterexample: a 206 Partial Content response — a 2xx status — is
*not* accepted: `DownloadFile` fails with the status-code error and never
proceeds to create the destination file, refuting "any 2xx status is
acceptable for proceeding to write the body". -/
theorem downloadFile_status206_counterexample :
    DownloadFile ⟨none, none, 206, none, none⟩ "video.mp4" [] =
      (some (.status "下载失败，状态码" 206), []) := by
  rfl

/-- C6 amended: `DownloadFile` treats any status other than exactly 200 as
a failure whose error carries the received status code (leaving the
filesystem untouched), and only a 200 status proceeds to create the
destination file and write the body. -/
theorem downloadFile_status_check (env : DlEnv) (filename : String) (fs : FS)
    (hreq : env.reqErr = none) (hresp : env.respErr = none) :
    (env.statusCode ≠ 200 →
      DownloadFile env filename fs = (some (.status "下载失败，状态码" env.statusCode), fs)) ∧
    (env.statusCode = 200 → env.createErr = none →
      (DownloadFile env filename fs).2 = fsCreate filename fs) := by
  unfold DownloadFile
  rw [hreq, hresp]
  constructor
  · intro hs
    rw [if_pos hs]
  · intro hs hc
    rw [if_neg (by simp [hs]), hc]
    cases env.copyErr <;> rfl

/-- C6 witness: a 404 response fails carrying the code 404. -/
theorem downloadFile_status_check_witness :
    DownloadFile ⟨none, none, 404, none, none⟩ "video.mp4" [] =
      (some (.status "下载失败，状态码" 404), []) :=
  (downloadFile_status_check ⟨none, none, 404, none, none⟩ "video.mp4" [] rfl rfl).1
    (by decide)

/-- C10: the destination file is created only after a 200 status has been
observed: if the request cannot be created, the transport fails, or the
status is rejected, `DownloadFile` returns an error with the filesystem
exactly as it was — the destination was never created. -/
theorem downloadFile_creates_only_after_200 (env : DlEnv) (filename : String)
    (fs : FS)
    (h : env.reqErr ≠ none ∨ env.respErr ≠ none ∨ env.statusCode ≠ 200) :
    ∃ e, DownloadFile env filename fs = (some e, fs) := by
  unfold DownloadFile
  match hreq : env.reqErr with
  | some e => exact ⟨.wrap "创建请求失败" e, rfl⟩
  | none =>
    match hresp : env.respErr with
    | some e => exact ⟨.wrap "请求失败" e, rfl⟩
    | none =>
      have hs : env.statusCode ≠ 200 := by
        rcases h with h | h | h
        · exact absurd hreq h
        · exact absurd hresp h
        · exact h
      exact ⟨.status "下载失败，状态码" env.statusCode, by rw [if_pos hs]⟩

/-- C10 witness: a failed transport returns an error and no file. -/
theorem downloadFile_creates_only_after_200_witness :
    ∃ e, DownloadFile ⟨none, some (.msg "dial tcp: timeout"), 200, none, none⟩
      "video.mp4" [] = (some e, []) :=
  downloadFile_creates_only_after_200
    ⟨none, some (.msg "dial tcp: timeout"), 200, none, none⟩ "video.mp4" []
    (by decide)

/-! ### Claim C8 (mergeWithFfmpeg) -/

/-- C8: the muxer invokes the tool with the overwrite flag `-y`, the two
inputs, the stream-copy directive `-c copy` and the output path; when the
tool is absent from the search path the operation fails with the
distinguishable not-found wrap without invoking anything; and a nonzero
exit fails with an error whose payload includes the tool's combined
output. -/
theorem mergeWithFfmpeg_contract (lookPathRes : Except GoErr String)
    (runErr : Option GoErr) (runOutput : String)
    (videoPath audioPath outputPath : String) :
    (∀ e, lookPathRes = .error e →
      mergeWithFfmpeg lookPathRes runErr runOutput videoPath audioPath outputPath =
        (some (.wrap "未找到 FFmpeg，请确保已安装" e), [])) ∧
    (∀ p, lookPathRes = .ok p →
      (mergeWithFfmpeg lookPathRes runErr runOutput videoPath audioPath outputPath).2 =
        [.invoked p ["-y", "-i", videoPath, "-i", audioPath, "-c", "copy", outputPath]]) ∧
    (∀ p e, lookPathRes = .ok p → runErr = some e →
      (mergeWithFfmpeg lookPathRes runErr runOutput videoPath audioPath outputPath).1 =
        some (.execFailed "FFmpeg 执行失败" e runOutput)) := by
  refine ⟨?_, ?_, ?_⟩
  · intro e he
    rw [he]
    rfl
  · intro p hp
    rw [hp]
    unfold mergeWithFfmpeg
    cases runErr <;> rfl
  · intro p e hp he
    rw [hp, he]
    rfl

/-- C8 witness: with the tool absent, the call fails with the not-found
wrap and invokes nothing. -/
theorem mergeWithFfmpeg_contract_witness :
    mergeWithFfmpeg (.error (.msg "executable file not found in $PATH"))
      none "" "v.mp4" "a.m4a" "o.mp4" =
      (some (.wrap "未找到 FFmpeg，请确保已安装"
        (.msg "executable file not found in $PATH")), []) :=
  (mergeWithFfmpeg_contract (.error (.msg "executable file not found in $PATH"))
    none "" "v.mp4" "a.m4a" "o.mp4").1 _ rfl

/-! ### Claim C3 (cleanupReadCloser.Close) -/

/-- C3: on a fresh stream, `Close` surfaces the handle-close result and
performs the cleanup side effects exactly once, in the order: close the
read handle, remove the output file, remove the temporary directory; a
second `Close` returns no error, changes nothing on disk, and performs no
side effects. -/
theorem cleanupClose_idempotent_ordered (c : CleanupReadCloser) (fs : FS)
    (h : c.done = false) :
    (cleanupClose c fs).1 = c.closeResult ∧
    (cleanupClose c fs).2.2.2 =
      [.closeHandle, .removeFile c.filePath, .removeDirAll c.tempDir] ∧
    cleanupClose (cleanupClose c fs).2.1 (cleanupClose c fs).2.2.1 =
      (none, (cleanupClose c fs).2.1, (cleanupClose c fs).2.2.1, []) := by
  unfold cleanupClose
  rw [if_neg (by simp [h])]
  simp

/-- C3 witness: a concrete stream, closed twice. -/
theorem cleanupClose_idempotent_ordered_witness :
    (cleanupClose ⟨"/tmp/d/out.mp4", "/tmp/d", false, none⟩
        ["/tmp/d/out.mp4", "/tmp/d"]).1 = none ∧
    (cleanupClose ⟨"/tmp/d/out.mp4", "/tmp/d", false, none⟩
        ["/tmp/d/out.mp4", "/tmp/d"]).2.2.2 =
      [.closeHandle, .removeFile "/tmp/d/out.mp4", .removeDirAll "/tmp/d"] ∧
    cleanupClose (cleanupClose ⟨"/tmp/d/out.mp4", "/tmp/d", false, none⟩
        ["/tmp/d/out.mp4", "/tmp/d"]).2.1
      (cleanupClose ⟨"/tmp/d/out.mp4", "/tmp/d", false, none⟩
        ["/tmp/d/out.mp4", "/tmp/d"]).2.2.1 =
      (none, (cleanupClose ⟨"/tmp/d/out.mp4", "/tmp/d", false, none⟩
        ["/tmp/d/out.mp4", "/tmp/d"]).2.1,
        (cleanupClose ⟨"/tmp/d/out.mp4", "/tmp/d", false, none⟩
        ["/tmp/d/out.mp4", "/tmp/d"]).2.2.1, []) :=
  cleanupClose_idempotent_ordered ⟨"/tmp/d/out.mp4", "/tmp/d", false, none⟩
    ["/tmp/d/out.mp4", "/tmp/d"] rfl

/-! ### Claim C7 (RefreshWbiKeys) -/

/-- Every call to `RefreshWbiKeys` clears the cache and then blocks
forever: `GetWbiKeys` begins with `RLock()` on the `RWMutex` whose write
lock the refresh still holds. Zero external fetches are performed, and
since the deferred `Unlock()` never runs, the mutex stays held. -/
theorem refreshWbiKeys_deadlock_any (st : ApiState)
    (fetch : Except GoErr NavResp) :
    RefreshWbiKeys st fetch = .deadlock { st with wbiKeys := none } 0 := rfl

/-- C7: evaluation of the code at the failing input. With a populated
cache and a healthy nav endpoint available, `RefreshWbiKeys` discards the
cached pair and then self-deadlocks — `GetWbiKeys` blocks forever taking
`RLock` on the non-reentrant `RWMutex` whose write lock the refresh still
holds. At the point of blocking the cache is Empty and zero external
fetches have been performed; the call never returns and the write lock is
never released, so no later resolve can fetch either. The claim — an
invalidation that completes without fetching, leaving the next resolve to
fetch — is the spec's intent; invoking the resolve under the held write
lock is the code's slip (its own doc comment promises a re-fetch, which
also never happens). -/
theorem refreshWbiKeys_deadlocks :
    RefreshWbiKeys ⟨some ⟨"oldimg", "oldsub"⟩⟩
      (.ok ⟨0, "", "https://i0.hdslb.com/bfs/wbi/abc.png",
        "https://i0.hdslb.com/bfs/wbi/def.png"⟩) =
      .deadlock ⟨none⟩ 0 := rfl

/-! ### Claim C2 (DownloadAndMerge failure handling) -/

theorem append_ne_empty_of_last (a b : String) (h : 0 < b.length) :
    (a ++ b != "") = true := by
  rw [bne_iff_ne]
  intro he
  have hl := congrArg String.length he
  rw [String.length_append] at hl
  have h0 : ("" : String).length = 0 := rfl
  omega

theorem videoPathOf_ne (env : MergeEnv) : (videoPathOf env != "") = true :=
  append_ne_empty_of_last _ ".mp4" (by decide)

theorem audioPathOf_ne (env : MergeEnv) : (audioPathOf env != "") = true :=
  append_ne_empty_of_last _ ".m4a" (by decide)

theorem outputPathOf_ne (env : MergeEnv) : (outputPathOf env != "") = true :=
  append_ne_empty_of_last _ ".mp4" (by decide)

theorem not_mem_filter_of_not_mem {a : String} {l : FS} (p : String → Bool)
    (h : a ∉ l) : a ∉ l.filter p := fun hm => h (List.mem_filter.mp hm).1

theorem fsRemove_self_not_mem (p : String) (fs : FS) : p ∉ fsRemove p fs := by
  intro h
  have := (List.mem_filter.mp h).2
  simp at this

theorem fsRemoveAll_self_not_mem (dir : String) (fs : FS) :
    dir ∉ fsRemoveAll dir fs := by
  intro h
  have := (List.mem_filter.mp h).2
  simp at this

theorem cleanupFiles_three (td vp ap op : String) (fs : FS)
    (htd : (td != "") = true) (hvp : (vp != "") = true)
    (hap : (ap != "") = true) (hop : (op != "") = true) :
    cleanupFiles td [vp, ap, op] fs =
      fsRemoveAll td (fsRemove op (fsRemove ap (fsRemove vp fs))) := by
  unfold cleanupFiles
  simp only [List.foldl_cons, List.foldl_nil, hvp, hap, hop, htd, if_true]

theorem cleanup_three_not_mem (td vp ap op : String) (fs : FS)
    (htd : (td != "") = true) (hvp : (vp != "") = true)
    (hap : (ap != "") = true) (hop : (op != "") = true) :
    vp ∉ cleanupFiles td [vp, ap, op] fs ∧
    ap ∉ cleanupFiles td [vp, ap, op] fs ∧
    op ∉ cleanupFiles td [vp, ap, op] fs ∧
    td ∉ cleanupFiles td [vp, ap, op] fs := by
  rw [cleanupFiles_three td vp ap op fs htd hvp hap hop]
  refine ⟨?_, ?_, ?_, ?_⟩
  · exact not_mem_filter_of_not_mem _ (not_mem_filter_of_not_mem _
      (not_mem_filter_of_not_mem _ (fsRemove_self_not_mem vp fs)))
  · exact not_mem_filter_of_not_mem _ (not_mem_filter_of_not_mem _
      (fsRemove_self_not_mem ap _))
  · exact not_mem_filter_of_not_mem _ (fsRemove_self_not_mem op _)
  · exact fsRemoveAll_self_not_mem td _

theorem collectErrors_pair (vp ap : String) (hvp : (vp != "") = true)
    (ve ae : Option GoErr) (b : Bool) :
    collectErrors (if b then [⟨vp, "", ve⟩, ⟨"", ap, ae⟩]
      else [⟨"", ap, ae⟩, ⟨vp, "", ve⟩]) = (ve, ae) := by
  have hvp2 : ¬vp = "" := by simpa using hvp
  cases b <;> cases ve <;> cases ae <;> simp [collectErrors, hvp2]

theorem dam_order (td : String) (stamp : Nat) (ve : Option GoErr) (vc : Bool)
    (ae : Option GoErr) (ac : Bool) (lp : Except GoErr String)
    (re : Option GoErr) (ro : String) (oe cr : Option GoErr) (fs0 : FS)
    (vf b : Bool) :
    DownloadAndMerge ⟨td, stamp, none, ve, vc, ae, ac, vf, lp, re, ro, oe, cr⟩ fs0 =
      DownloadAndMerge ⟨td, stamp, none, ve, vc, ae, ac, b, lp, re, ro, oe, cr⟩ fs0 := by
  dsimp only [DownloadAndMerge]
  rw [collectErrors_pair _ _ (videoPathOf_ne ⟨td, stamp, none, ve, vc, ae, ac, vf, lp, re, ro, oe, cr⟩) ve ae vf,
      collectErrors_pair _ _ (videoPathOf_ne ⟨td, stamp, none, ve, vc, ae, ac, b, lp, re, ro, oe, cr⟩) ve ae b]
  dsimp only [videoPathOf, audioPathOf, outputPathOf]

/-- C2: whenever at least one fetch fails, `DownloadAndMerge` returns an
error identifying which stream failed — the video failure is reported
whenever the video fetch failed, the audio failure otherwise — and every
partial artifact (the video file, the audio file — including that of a
stream whose fetch succeeded —, the output path and the temp directory) is
gone from the filesystem when the error is returned. Both fetch outcomes
are observed before the decision: the result is the same whichever stream's
result is delivered first. -/
theorem downloadAndMerge_fetch_failure (env : MergeEnv) (fs0 : FS)
    (hmk : env.mkdirErr = none) (htd : (env.tempDir != "") = true)
    (hfail : env.videoErr ≠ none ∨ env.audioErr ≠ none) :
    (∀ e, env.videoErr = some e →
      (DownloadAndMerge env fs0).1 = .error (.wrap "视频下载失败" e)) ∧
    (env.videoErr = none → ∀ e, env.audioErr = some e →
      (DownloadAndMerge env fs0).1 = .error (.wrap "音频下载失败" e)) ∧
    videoPathOf env ∉ (DownloadAndMerge env fs0).2 ∧
    audioPathOf env ∉ (DownloadAndMerge env fs0).2 ∧
    outputPathOf env ∉ (DownloadAndMerge env fs0).2 ∧
    env.tempDir ∉ (DownloadAndMerge env fs0).2 ∧
    DownloadAndMerge env fs0 =
      DownloadAndMerge { env with videoFirst := !env.videoFirst } fs0 := by
  obtain ⟨td, stamp, mkdirErr, ve, vc, ae, ac, vf, lp, re, ro, oe, cr⟩ := env
  dsimp only at hmk htd hfail ⊢
  subst hmk
  cases ve with
  | some e =>
    have heq : DownloadAndMerge ⟨td, stamp, none, some e, vc, ae, ac, vf, lp, re, ro, oe, cr⟩ fs0 =
        (.error (.wrap "视频下载失败" e),
          cleanupFiles td
            [videoPathOf ⟨td, stamp, none, some e, vc, ae, ac, vf, lp, re, ro, oe, cr⟩,
             audioPathOf ⟨td, stamp, none, some e, vc, ae, ac, vf, lp, re, ro, oe, cr⟩,
             outputPathOf ⟨td, stamp, none, some e, vc, ae, ac, vf, lp, re, ro, oe, cr⟩]
            (if ac then
              fsCreate (audioPathOf ⟨td, stamp, none, some e, vc, ae, ac, vf, lp, re, ro, oe, cr⟩)
                (if vc then
                  fsCreate (videoPathOf ⟨td, stamp, none, some e, vc, ae, ac, vf, lp, re, ro, oe, cr⟩)
                    (fsCreate td fs0)
                  else fsCreate td fs0)
              else
                (if vc then
                  fsCreate (videoPathOf ⟨td, stamp, none, some e, vc, ae, ac, vf, lp, re, ro, oe, cr⟩)
                    (fsCreate td fs0)
                  else fsCreate td fs0))) := by
      dsimp only [DownloadAndMerge]
      rw [collectErrors_pair _ _
        (videoPathOf_ne ⟨td, stamp, none, some e, vc, ae, ac, vf, lp, re, ro, oe, cr⟩) (some e) ae vf]
    refine ⟨?_, ?_, ?_, ?_, ?_, ?_, ?_⟩
    · intro e' he'
      injection he' with he2
      subst he2
      rw [heq]
    · intro hnone
      exact absurd hnone (by simp)
    · rw [heq]
      exact (cleanup_three_not_mem _ _ _ _ _ htd (videoPathOf_ne _) (audioPathOf_ne _) (outputPathOf_ne _)).1
    · rw [heq]
      exact (cleanup_three_not_mem _ _ _ _ _ htd (videoPathOf_ne _) (audioPathOf_ne _) (outputPathOf_ne _)).2.1
    · rw [heq]
      exact (cleanup_three_not_mem _ _ _ _ _ htd (videoPathOf_ne _) (audioPathOf_ne _) (outputPathOf_ne _)).2.2.1
    · rw [heq]
      exact (cleanup_three_not_mem _ _ _ _ _ htd (videoPathOf_ne _) (audioPathOf_ne _) (outputPathOf_ne _)).2.2.2
    · exact dam_order td stamp (some e) vc ae ac lp re ro oe cr fs0 vf (!vf)
  | none =>
    cases ae with
    | some e =>
      have heq : DownloadAndMerge ⟨td, stamp, none, none, vc, some e, ac, vf, lp, re, ro, oe, cr⟩ fs0 =
          (.error (.wrap "音频下载失败" e),
            cleanupFiles td
              [videoPathOf ⟨td, stamp, none, none, vc, some e, ac, vf, lp, re, ro, oe, cr⟩,
               audioPathOf ⟨td, stamp, none, none, vc, some e, ac, vf, lp, re, ro, oe, cr⟩,
               outputPathOf ⟨td, stamp, none, none, vc, some e, ac, vf, lp, re, ro, oe, cr⟩]
              (if ac then
                fsCreate (audioPathOf ⟨td, stamp, none, none, vc, some e, ac, vf, lp, re, ro, oe, cr⟩)
                  (if vc then
                    fsCreate (videoPathOf ⟨td, stamp, none, none, vc, some e, ac, vf, lp, re, ro, oe, cr⟩)
                      (fsCreate td fs0)
                    else fsCreate td fs0)
                else
                  (if vc then
                    fsCreate (videoPathOf ⟨td, stamp, none, none, vc, some e, ac, vf, lp, re, ro, oe, cr⟩)
                      (fsCreate td fs0)
                    else fsCreate td fs0))) := by
        dsimp only [DownloadAndMerge]
        rw [collectErrors_pair _ _
          (videoPathOf_ne ⟨td, stamp, none, none, vc, some e, ac, vf, lp, re, ro, oe, cr⟩) none (some e) vf]
      refine ⟨?_, ?_, ?_, ?_, ?_, ?_, ?_⟩
      · intro e' he'
        exact absurd he' (by simp)
      · intro _ e' he'
        injection he' with he2
        subst he2
        rw [heq]
      · rw [heq]
        exact (cleanup_three_not_mem _ _ _ _ _ htd (videoPathOf_ne _) (audioPathOf_ne _) (outputPathOf_ne _)).1
      · rw [heq]
        exact (cleanup_three_not_mem _ _ _ _ _ htd (videoPathOf_ne _) (audioPathOf_ne _) (outputPathOf_ne _)).2.1
      · rw [heq]
        exact (cleanup_three_not_mem _ _ _ _ _ htd (videoPathOf_ne _) (audioPathOf_ne _) (outputPathOf_ne _)).2.2.1
      · rw [heq]
        exact (cleanup_three_not_mem _ _ _ _ _ htd (videoPathOf_ne _) (audioPathOf_ne _) (outputPathOf_ne _)).2.2.2
      · exact dam_order td stamp none vc (some e) ac lp re ro oe cr fs0 vf (!vf)
    | none =>
      rcases hfail with h | h <;> exact absurd rfl h

/-- C2 witness: the video fetch fails while the audio fetch succeeded and
created its file; the video failure is reported and nothing is left on
disk. -/
theorem downloadAndMerge_fetch_failure_witness :
    (∀ e, (some (GoErr.msg "boom") : Option GoErr) = some e →
      (DownloadAndMerge ⟨"/tmp/bili", 7, none, some (.msg "boom"), false,
        none, true, true, .ok "/usr/bin/ffmpeg", none, "", none, none⟩ []).1 =
        .error (.wrap "视频下载失败" e)) ∧
    ((some (GoErr.msg "boom") : Option GoErr) = none → ∀ e,
      (none : Option GoErr) = some e →
      (DownloadAndMerge ⟨"/tmp/bili", 7, none, some (.msg "boom"), false,
        none, true, true, .ok "/usr/bin/ffmpeg", none, "", none, none⟩ []).1 =
        .error (.wrap "音频下载失败" e)) ∧
    videoPathOf ⟨"/tmp/bili", 7, none, some (.msg "boom"), false,
        none, true, true, .ok "/usr/bin/ffmpeg", none, "", none, none⟩ ∉
      (DownloadAndMerge ⟨"/tmp/bili", 7, none, some (.msg "boom"), false,
        none, true, true, .ok "/usr/bin/ffmpeg", none, "", none, none⟩ []).2 ∧
    audioPathOf ⟨"/tmp/bili", 7, none, some (.msg "boom"), false,
        none, true, true, .ok "/usr/bin/ffmpeg", none, "", none, none⟩ ∉
      (DownloadAndMerge ⟨"/tmp/bili", 7, none, some (.msg "boom"), false,
        none, true, true, .ok "/usr/bin/ffmpeg", none, "", none, none⟩ []).2 ∧
    outputPathOf ⟨"/tmp/bili", 7, none, some (.msg "boom"), false,
        none, true, true, .ok "/usr/bin/ffmpeg", none, "", none, none⟩ ∉
      (DownloadAndMerge ⟨"/tmp/bili", 7, none, some (.msg "boom"), false,
        none, true, true, .ok "/usr/bin/ffmpeg", none, "", none, none⟩ []).2 ∧
    "/tmp/bili" ∉
      (DownloadAndMerge ⟨"/tmp/bili", 7, none, some (.msg "boom"), false,
        none, true, true, .ok "/usr/bin/ffmpeg", none, "", none, none⟩ []).2 ∧
    DownloadAndMerge ⟨"/tmp/bili", 7, none, some (.msg "boom"), false,
        none, true, true, .ok "/usr/bin/ffmpeg", none, "", none, none⟩ [] =
      DownloadAndMerge ⟨"/tmp/bili", 7, none, some (.msg "boom"), false,
        none, true, false, .ok "/usr/bin/ffmpeg", none, "", none, none⟩ [] :=
  downloadAndMerge_fetch_failure
    ⟨"/tmp/bili", 7, none, some (.msg "boom"), false,
      none, true, true, .ok "/usr/bin/ffmpeg", none, "", none, none⟩ []
    rfl (by decide) (by left; simp)

end Bili
